import Mathlib

/-!
Shallow embedding of the chat front-end in `src/App.tsx`.

The component keeps four pieces of state (`chat`, `messages`, `isLoading`,
`error`).  Bootstrap obtains a session handle and installs the greeting
record; `handleSendMessage` appends a user record and an empty model
placeholder, then consumes a stream of text fragments, rewriting the
placeholder's `text` with the accumulated response after each fragment;
a stream failure overwrites the placeholder with a fixed error string.

External behaviour (the SDK) is modelled as explicit inputs: whether
`startChat` succeeds, the two `Date.now()` readings of a submission, the
list of fragments delivered, and whether the stream raises afterwards.
-/

inductive Role where
  | user : Role
  | model : Role
deriving DecidableEq

structure Message where
  id : String
  role : Role
  text : String
deriving DecidableEq

structure AppState where
  chat : Option Unit
  messages : List Message
  isLoading : Bool
  error : Option String
deriving DecidableEq

/-- The state before any effect has run: no handle, empty store, no flags. -/
def initialState : AppState :=
  { chat := none, messages := [], isLoading := false, error := none }

/-- The greeting record installed by the bootstrap effect (App.tsx lines 34-40). -/
def greeting : Message :=
  { id := "init", role := Role.model, text := "Hello! How can I assist you today?" }

/-- Banner text set when `startChat` throws (App.tsx line 43). -/
def bootErrorBanner : String :=
  "Failed to initialize the chat service. Please check your API key."

/-- Banner text set when the stream raises (App.tsx line 87). -/
def streamErrorBanner : String :=
  "An error occurred while getting a response. Please try again."

/-- Text that replaces the placeholder when the stream raises (App.tsx line 90). -/
def errorReplyText : String :=
  "Sorry, I encountered an error."

/-- The bootstrap effect (App.tsx lines 30-45): `ok` is whether `startChat`
returned normally.  On success the handle is stored and the store is set to
the singleton greeting list; on failure only the error banner is set. -/
def bootstrap (ok : Bool) (s : AppState) : AppState :=
  if ok then
    { s with chat := some (), messages := [greeting] }
  else
    { s with error := some bootErrorBanner }

/-- One streaming update (the `setMessages` call at App.tsx lines 79-83, and
the identical shape in the catch branch at lines 88-92): every record whose
id equals `pid` has its `text` replaced by `txt`; all others are kept. -/
def setText (pid txt : String) (msgs : List Message) : List Message :=
  msgs.map (fun m => if m.id == pid then { m with text := txt } else m)

/-- The `for await` loop of App.tsx lines 76-84.  Given the placeholder id,
the current store, the accumulated `fullResponse` and the remaining fragments,
it returns the list of intermediate stores (one per fragment, in order), the
final store, and the final accumulator. -/
def streamRun (pid : String) (msgs : List Message) (full : String) :
    List String → List (List Message) × List Message × String
  | [] => ([], msgs, full)
  | c :: cs =>
    let full' := full ++ c
    let msgs' := setText pid full' msgs
    let r := streamRun pid msgs' full' cs
    (msgs' :: r.1, r.2)

/-- The submission operation `handleSendMessage` (App.tsx lines 53-96).
`t1`, `t2` are the `Date.now()` readings used for the user id and the model
placeholder id; `fragments` are the fragments the stream delivers before
completing or raising, and `fails` is whether it raises.  Totality of this
function models the fact that no exception escapes the handler. -/
def handleSendMessage (s : AppState) (t1 t2 : Nat) (userMessage : String)
    (fragments : List String) (fails : Bool) : AppState :=
  match s.chat with
  | none => s
  | some _ =>
    let newUserMessage : Message :=
      { id := Nat.repr t1, role := Role.user, text := userMessage }
    let modelResponseId : String := "model-" ++ Nat.repr t2
    let msgs1 := (s.messages ++ [newUserMessage]) ++
      [{ id := modelResponseId, role := Role.model, text := "" }]
    let msgs2 := (streamRun modelResponseId msgs1 "" fragments).2.1
    if fails then
      { chat := s.chat, isLoading := false, error := some streamErrorBanner,
        messages := setText modelResponseId errorReplyText msgs2 }
    else
      { chat := s.chat, isLoading := false, error := none, messages := msgs2 }

/-- One submission's external inputs: the two clock readings, the submitted
text, the fragments delivered, and whether the stream raises at the end. -/
structure Submission where
  t1 : Nat
  t2 : Nat
  input : String
  fragments : List String
  fails : Bool
deriving DecidableEq

/-- Run a sequence of submissions in order. -/
def runSubmissions (s : AppState) : List Submission → AppState
  | [] => s
  | sub :: rest =>
    runSubmissions (handleSendMessage s sub.t1 sub.t2 sub.input sub.fragments sub.fails) rest

/-- The text of the first record with the given id, if any (how the UI and
the spec locate the placeholder record). -/
def textOf (msgs : List Message) (pid : String) : Option String :=
  (msgs.find? (fun m => m.id == pid)).map Message.text

/-- Concatenation of a fragment list in arrival order. -/
def joinFrags : List String → String
  | [] => ""
  | c :: cs => c ++ joinFrags cs

/-- The snapshot sequence the spec describes for fragments [f1, ..., fn]:
[f1, f1 ++ f2, ..., f1 ++ ... ++ fn]. -/
def prefixConcats : List String → List String
  | [] => []
  | f :: fs => f :: (prefixConcats fs).map (fun x => f ++ x)

/-- The (id, role) pattern the spec predicts a submission sequence appends:
for each submission a user record then a model record, in order. -/
def idRolePattern : List Submission → List (String × Role)
  | [] => []
  | sub :: rest =>
    (Nat.repr sub.t1, Role.user) :: ("model-" ++ Nat.repr sub.t2, Role.model) ::
      idRolePattern rest

/-! ### Decimal representation facts, needed to reason about message ids -/

lemma toDigitsCore_acc (b : Nat) :
    ∀ (f n : Nat) (acc : List Char),
      Nat.toDigitsCore b f n acc = Nat.toDigitsCore b f n [] ++ acc := by
  intro f
  induction f with
  | zero => intro n acc; simp [Nat.toDigitsCore]
  | succ f ih =>
    intro n acc
    unfold Nat.toDigitsCore
    by_cases h : n / b = 0
    · simp [h]
    · simp only [h, if_false]
      rw [ih (n / b) (Nat.digitChar (n % b) :: acc), ih (n / b) [Nat.digitChar (n % b)]]
      simp

lemma toDigitsCore_eq_digits :
    ∀ (b f n : Nat), 1 < b → 0 < n → n < b ^ f →
      Nat.toDigitsCore b f n [] = ((Nat.digits b n).map Nat.digitChar).reverse := by
  intro b f
  induction f with
  | zero =>
    intro n _ hn hf
    simp only [pow_zero] at hf
    omega
  | succ f ih =>
    intro n hb hn hf
    have hb0 : 0 < b := by omega
    rw [Nat.digits_def' hb hn]
    unfold Nat.toDigitsCore
    by_cases h : n / b = 0
    · simp only [h, if_true, Nat.digits_zero, List.map_cons, List.map_nil]
      simp
    · simp only [h, if_false]
      have hdiv : n / b < b ^ f := by
        rw [pow_succ] at hf
        exact (Nat.div_lt_iff_lt_mul hb0).mpr hf
      rw [toDigitsCore_acc, ih (n / b) hb (Nat.pos_of_ne_zero h) hdiv]
      simp

lemma repr_data_eq (n : Nat) (h : 0 < n) :
    (Nat.repr n).data = ((Nat.digits 10 n).map Nat.digitChar).reverse := by
  have hpow : n < 10 ^ (n + 1) := by
    calc n < 2 ^ n := Nat.lt_two_pow n
    _ ≤ 10 ^ n := Nat.pow_le_pow_left (by norm_num) n
    _ ≤ 10 ^ (n + 1) := Nat.pow_le_pow_right (by norm_num) (Nat.le_succ n)
  unfold Nat.repr Nat.toDigits
  rw [toDigitsCore_eq_digits 10 (n + 1) n (by norm_num) h hpow]
  rfl

/-- The ten characters `Nat.digitChar` can produce below base 10. -/
def decimalDigitChars : List Char :=
  ['0', '1', '2', '3', '4', '5', '6', '7', '8', '9']

lemma digitChar_mem (d : Nat) (h : d < 10) : Nat.digitChar d ∈ decimalDigitChars := by
  interval_cases d <;> decide

lemma repr_data_digits (n : Nat) : ∀ c ∈ (Nat.repr n).data, c ∈ decimalDigitChars := by
  intro c hc
  rcases Nat.eq_zero_or_pos n with h | h
  · subst h
    have h0 : (Nat.repr 0).data = ['0'] := rfl
    rw [h0] at hc
    simp only [List.mem_singleton] at hc
    subst hc
    decide
  · rw [repr_data_eq n h, List.mem_reverse] at hc
    rcases List.mem_map.mp hc with ⟨d, hd, rfl⟩
    exact digitChar_mem d (Nat.digits_lt_base (by norm_num) hd)

lemma digitChar_inj {d1 d2 : Nat} (h1 : d1 < 10) (h2 : d2 < 10) :
    Nat.digitChar d1 = Nat.digitChar d2 → d1 = d2 := by
  interval_cases d1 <;> interval_cases d2 <;> decide

lemma map_digitChar_inj :
    ∀ (l1 l2 : List Nat), (∀ d ∈ l1, d < 10) → (∀ d ∈ l2, d < 10) →
      l1.map Nat.digitChar = l2.map Nat.digitChar → l1 = l2 := by
  intro l1
  induction l1 with
  | nil =>
    intro l2 _ _ h
    cases l2 with
    | nil => rfl
    | cons b l2 => simp at h
  | cons a l1 ih =>
    intro l2 h1 h2 h
    cases l2 with
    | nil => simp at h
    | cons b l2 =>
      simp only [List.map_cons, List.cons.injEq] at h
      have hab := digitChar_inj (h1 a (by simp)) (h2 b (by simp)) h.1
      subst hab
      rw [ih l2 (fun d hd => h1 d (by simp [hd])) (fun d hd => h2 d (by simp [hd])) h.2]

lemma repr_pos_ne_repr_zero {n : Nat} (hn : 0 < n) : Nat.repr n ≠ Nat.repr 0 := by
  intro h
  have hd := congrArg String.data h
  rw [repr_data_eq n hn] at hd
  have h0 : (Nat.repr 0).data = ['0'] := rfl
  rw [h0] at hd
  have hmap : (Nat.digits 10 n).map Nat.digitChar = ['0'] := by
    have := congrArg List.reverse hd
    rwa [List.reverse_reverse] at this
  have hds : Nat.digits 10 n = [0] := by
    cases hds : Nat.digits 10 n with
    | nil => rw [hds] at hmap; simp at hmap
    | cons d tl =>
      rw [hds] at hmap
      simp only [List.map_cons, List.cons.injEq, List.map_eq_nil_iff] at hmap
      have hd10 : d < 10 :=
        Nat.digits_lt_base (by norm_num) (by rw [hds]; exact List.mem_cons_self d tl)
      have : d = 0 := digitChar_inj hd10 (by norm_num) hmap.1
      rw [this, hmap.2]
  have hne : n ≠ 0 := by omega
  have := Nat.getLast_digit_ne_zero 10 hne
  rw [List.getLast_congr _ _ hds] at this
  · simp at this
  · simp

lemma repr_inj : Function.Injective Nat.repr := by
  intro m n h
  rcases Nat.eq_zero_or_pos m with hm | hm <;> rcases Nat.eq_zero_or_pos n with hn | hn
  · omega
  · subst hm
    exact absurd h.symm (repr_pos_ne_repr_zero hn)
  · subst hn
    exact absurd h (repr_pos_ne_repr_zero hm)
  · have hd := congrArg String.data h
    rw [repr_data_eq m hm, repr_data_eq n hn] at hd
    have hrev := List.reverse_injective hd
    have hmap := map_digitChar_inj _ _
      (fun d hd' => Nat.digits_lt_base (by norm_num) hd')
      (fun d hd' => Nat.digits_lt_base (by norm_num) hd') hrev
    exact Nat.digits_inj_iff.mp hmap

lemma mem_model_append (s : String) : 'm' ∈ ("model-" ++ s).data := by
  rw [String.data_append]
  exact List.mem_append_left _ (by decide)

lemma model_append_ne_repr (s : String) (n : Nat) : "model-" ++ s ≠ Nat.repr n := by
  intro h
  have hm : 'm' ∈ (Nat.repr n).data := by rw [← h]; exact mem_model_append s
  exact absurd (repr_data_digits n 'm' hm) (by decide)

lemma repr_ne_init (n : Nat) : Nat.repr n ≠ "init" := by
  intro h
  have hi : 'i' ∈ (Nat.repr n).data := by rw [h]; decide
  exact absurd (repr_data_digits n 'i' hi) (by decide)

lemma model_append_ne_init (s : String) : "model-" ++ s ≠ "init" := by
  intro h
  have hd := congrArg String.data h
  rw [String.data_append] at hd
  have hlen := congrArg List.length hd
  rw [List.length_append] at hlen
  have h6 : ("model-" : String).data.length = 6 := rfl
  have h4 : ("init" : String).data.length = 4 := rfl
  omega

lemma model_append_inj {a b : String} (h : "model-" ++ a = "model-" ++ b) : a = b := by
  have hd := congrArg String.data h
  rw [String.data_append, String.data_append] at hd
  exact String.ext (List.append_cancel_left hd)

/-! ### Store-shape lemmas: updates never touch ids, roles, or order -/

/-- The creation-time fields of a record (everything except `text`). -/
def keyOf (m : Message) : String × Role := (m.id, m.role)

lemma setText_keyOf (pid txt : String) (l : List Message) :
    (setText pid txt l).map keyOf = l.map keyOf := by
  unfold setText
  rw [List.map_map]
  apply List.map_congr_left
  intro m _
  by_cases h : m.id = pid <;> simp [h, keyOf]

lemma streamRun_keyOf (pid : String) :
    ∀ (cs : List String) (l : List Message) (full : String),
      ((streamRun pid l full cs).2.1).map keyOf = l.map keyOf := by
  intro cs
  induction cs with
  | nil => intro l full; rfl
  | cons c cs ih =>
    intro l full
    simp only [streamRun]
    rw [ih, setText_keyOf]

lemma handleSendMessage_chat (s : AppState) (t1 t2 : Nat) (msg : String)
    (fs : List String) (b : Bool) :
    (handleSendMessage s t1 t2 msg fs b).chat = s.chat := by
  obtain ⟨c, ms, il, er⟩ := s
  cases c <;> cases b <;> rfl

lemma handleSendMessage_keyOf (s : AppState) (t1 t2 : Nat) (msg : String)
    (fs : List String) (b : Bool) (h : s.chat = some ()) :
    (handleSendMessage s t1 t2 msg fs b).messages.map keyOf =
      s.messages.map keyOf ++
        [(Nat.repr t1, Role.user), ("model-" ++ Nat.repr t2, Role.model)] := by
  obtain ⟨c, ms, il, er⟩ := s
  cases c with
  | none => exact absurd h (by simp)
  | some u =>
    cases u
    cases b <;>
      simp [handleSendMessage, setText_keyOf, streamRun_keyOf, keyOf]

lemma runSubmissions_chat :
    ∀ (subs : List Submission) (s : AppState), (runSubmissions s subs).chat = s.chat := by
  intro subs
  induction subs with
  | nil => intro s; rfl
  | cons sub rest ih =>
    intro s
    rw [runSubmissions, ih, handleSendMessage_chat]

lemma runSubmissions_keyOf :
    ∀ (subs : List Submission) (s : AppState), s.chat = some () →
      (runSubmissions s subs).messages.map keyOf =
        s.messages.map keyOf ++ idRolePattern subs := by
  intro subs
  induction subs with
  | nil => intro s _; simp [runSubmissions, idRolePattern]
  | cons sub rest ih =>
    intro s h
    rw [runSubmissions,
      ih _ (by rw [handleSendMessage_chat]; exact h),
      handleSendMessage_keyOf _ _ _ _ _ _ h, idRolePattern]
    simp

lemma idRolePattern_length (subs : List Submission) :
    (idRolePattern subs).length = 2 * subs.length := by
  induction subs with
  | nil => rfl
  | cons sub rest ih => simp [idRolePattern, ih]; omega

/-! ### Locating and updating the placeholder record -/

lemma setText_cons (pid txt : String) (m : Message) (l : List Message) :
    setText pid txt (m :: l) =
      (if m.id == pid then { m with text := txt } else m) :: setText pid txt l := rfl

lemma textOf_cons_eq (m : Message) (l : List Message) (pid : String) (h : m.id = pid) :
    textOf (m :: l) pid = some m.text := by
  simp [textOf, List.find?_cons, h]

lemma textOf_cons_ne (m : Message) (l : List Message) (pid : String) (h : m.id ≠ pid) :
    textOf (m :: l) pid = textOf l pid := by
  simp [textOf, List.find?_cons, h]

lemma textOf_setText_self (pid txt : String) :
    ∀ l : List Message, (∃ m ∈ l, m.id = pid) →
      textOf (setText pid txt l) pid = some txt := by
  intro l
  induction l with
  | nil => intro h; simp at h
  | cons m l ih =>
    intro h
    rw [setText_cons]
    by_cases hm : m.id = pid
    · rw [if_pos (by simp [hm])]
      rw [textOf_cons_eq _ _ _ (by simp [hm])]
    · rw [if_neg (by simp [hm]), textOf_cons_ne _ _ _ hm]
      apply ih
      rcases h with ⟨m', hmem, hid⟩
      rcases List.mem_cons.mp hmem with rfl | hmem'
      · exact absurd hid hm
      · exact ⟨m', hmem', hid⟩

lemma textOf_setText_ne (pid' txt pid : String) (hne : pid' ≠ pid) :
    ∀ l : List Message, textOf (setText pid' txt l) pid = textOf l pid := by
  intro l
  induction l with
  | nil => rfl
  | cons m l ih =>
    rw [setText_cons]
    by_cases hm : m.id = pid'
    · rw [if_pos (by simp [hm])]
      have hne' : m.id ≠ pid := by rw [hm]; exact hne
      rw [textOf_cons_ne { id := m.id, role := m.role, text := txt } _ _ hne',
        textOf_cons_ne m _ _ hne']
      exact ih
    · rw [if_neg (by simp [hm])]
      by_cases hp : m.id = pid
      · rw [textOf_cons_eq _ _ _ hp, textOf_cons_eq _ _ _ hp]
      · rw [textOf_cons_ne _ _ _ hp, textOf_cons_ne _ _ _ hp]
        exact ih

lemma exists_id_setText (pid' txt pid : String) (l : List Message)
    (h : ∃ m ∈ l, m.id = pid) : ∃ m ∈ setText pid' txt l, m.id = pid := by
  rcases h with ⟨m, hm, hid⟩
  refine ⟨if m.id == pid' then { m with text := txt } else m, ?_, ?_⟩
  · exact List.mem_map_of_mem _ hm
  · split <;> exact hid

lemma exists_id_streamRun (pid' pid : String) :
    ∀ (cs : List String) (l : List Message) (full : String),
      (∃ m ∈ l, m.id = pid) →
      ∃ m ∈ (streamRun pid' l full cs).2.1, m.id = pid := by
  intro cs
  induction cs with
  | nil => intro l full h; exact h
  | cons c cs ih =>
    intro l full h
    simp only [streamRun]
    exact ih _ _ (exists_id_setText _ _ _ _ h)

lemma textOf_append_left (l l' : List Message) (pid v : String)
    (h : textOf l pid = some v) : textOf (l ++ l') pid = some v := by
  induction l with
  | nil => simp [textOf] at h
  | cons m l ih =>
    by_cases hm : m.id = pid
    · rw [textOf_cons_eq _ _ _ hm] at h
      rw [List.cons_append, textOf_cons_eq _ _ _ hm]
      exact h
    · rw [textOf_cons_ne _ _ _ hm] at h
      rw [List.cons_append, textOf_cons_ne _ _ _ hm]
      exact ih h

lemma textOf_append_right (l l' : List Message) (pid : String)
    (h : ∀ m ∈ l, m.id ≠ pid) : textOf (l ++ l') pid = textOf l' pid := by
  induction l with
  | nil => rfl
  | cons m l ih =>
    rw [List.cons_append, textOf_cons_ne _ _ _ (h m (by simp))]
    exact ih (fun m' hm' => h m' (by simp [hm']))

lemma textOf_streamRun_final (pid : String) :
    ∀ (cs : List String) (l : List Message) (full : String),
      textOf l pid = some full →
      textOf (streamRun pid l full cs).2.1 pid = some (full ++ joinFrags cs) := by
  intro cs
  induction cs with
  | nil =>
    intro l full h
    simpa [streamRun, joinFrags, String.append_empty] using h
  | cons c cs ih =>
    intro l full h
    simp only [streamRun]
    have hsome : ∃ m ∈ l, m.id = pid := by
      unfold textOf at h
      rcases Option.map_eq_some'.mp h with ⟨m, hm, _⟩
      exact ⟨m, List.mem_of_find?_eq_some hm, by
        have := List.find?_some hm
        simpa using this⟩
    have hstep := textOf_setText_self pid (full ++ c) l hsome
    have := ih (setText pid (full ++ c) l) (full ++ c) hstep
    rw [this, joinFrags, String.append_assoc]

lemma textOf_streamRun_trace (pid : String) :
    ∀ (cs : List String) (l : List Message) (full : String),
      (∃ m ∈ l, m.id = pid) →
      (streamRun pid l full cs).1.map (fun x => textOf x pid) =
        (prefixConcats cs).map (fun x => some (full ++ x)) := by
  intro cs
  induction cs with
  | nil => intro l full _; rfl
  | cons c cs ih =>
    intro l full h
    simp only [streamRun, prefixConcats, List.map_cons, List.map_map, List.cons.injEq]
    refine ⟨textOf_setText_self pid (full ++ c) l h, ?_⟩
    rw [ih _ _ (exists_id_setText _ _ _ _ h)]
    apply List.map_congr_left
    intro x _
    simp [String.append_assoc]

lemma textOf_streamRun_ne (pid' pid : String) (hne : pid' ≠ pid) :
    ∀ (cs : List String) (l : List Message) (full : String),
      textOf (streamRun pid' l full cs).2.1 pid = textOf l pid := by
  intro cs
  induction cs with
  | nil => intro l full; rfl
  | cons c cs ih =>
    intro l full
    simp only [streamRun]
    rw [ih, textOf_setText_ne _ _ _ hne]

lemma setText_append (pid txt : String) (l1 l2 : List Message) :
    setText pid txt (l1 ++ l2) = setText pid txt l1 ++ setText pid txt l2 :=
  List.map_append _ _ _

lemma setText_untouched (pid txt : String) :
    ∀ l : List Message, (∀ m ∈ l, m.id ≠ pid) → setText pid txt l = l := by
  intro l
  induction l with
  | nil => intro _; rfl
  | cons m l ih =>
    intro h
    rw [setText_cons, if_neg (by simp [h m (by simp)]),
      ih (fun m' hm' => h m' (by simp [hm']))]

lemma setText_single_eq (pid txt : String) (role : Role) (t0 : String) :
    setText pid txt [{ id := pid, role := role, text := t0 }] =
      [{ id := pid, role := role, text := txt }] := by
  simp [setText]

lemma streamRun_append (pid : String) :
    ∀ (cs : List String) (l1 l2 : List Message) (full : String),
      (streamRun pid (l1 ++ l2) full cs).2.1 =
        (streamRun pid l1 full cs).2.1 ++ (streamRun pid l2 full cs).2.1 := by
  intro cs
  induction cs with
  | nil => intro l1 l2 full; rfl
  | cons c cs ih =>
    intro l1 l2 full
    simp only [streamRun, setText_append]
    exact ih _ _ _

lemma streamRun_untouched (pid : String) :
    ∀ (cs : List String) (l : List Message) (full : String),
      (∀ m ∈ l, m.id ≠ pid) → (streamRun pid l full cs).2.1 = l := by
  intro cs
  induction cs with
  | nil => intro l full _; rfl
  | cons c cs ih =>
    intro l full h
    simp only [streamRun]
    rw [setText_untouched _ _ _ h]
    exact ih _ _ h

lemma streamRun_single (pid : String) (role : Role) :
    ∀ (cs : List String) (full : String),
      (streamRun pid [{ id := pid, role := role, text := full }] full cs).2.1 =
        [{ id := pid, role := role, text := full ++ joinFrags cs }] := by
  intro cs
  induction cs with
  | nil => intro full; simp [streamRun, joinFrags, String.append_empty]
  | cons c cs ih =>
    intro full
    simp only [streamRun]
    have hset : setText pid (full ++ c) [{ id := pid, role := role, text := full }] =
        [{ id := pid, role := role, text := full ++ c }] := setText_single_eq _ _ _ _
    rw [hset, ih (full ++ c), joinFrags, String.append_assoc]

/-- After a failed submission the store is the old store followed by the exact
user record and the placeholder holding the fixed error string. -/
lemma handleSendMessage_messages_fail (s : AppState) (t1 t2 : Nat) (msg : String)
    (fs : List String) (h : s.chat = some ())
    (hfresh : ∀ m ∈ s.messages, m.id ≠ "model-" ++ Nat.repr t2) :
    (handleSendMessage s t1 t2 msg fs true).messages =
      s.messages ++ [{ id := Nat.repr t1, role := Role.user, text := msg },
        { id := "model-" ++ Nat.repr t2, role := Role.model, text := errorReplyText }] := by
  obtain ⟨c, ms, il, er⟩ := s
  cases c with
  | none => exact absurd h (by simp)
  | some u =>
    cases u
    simp only [handleSendMessage, if_pos]
    have huser : ∀ m ∈ ([{ id := Nat.repr t1, role := Role.user, text := msg }] : List Message),
        m.id ≠ "model-" ++ Nat.repr t2 := by
      intro m hm
      simp only [List.mem_singleton] at hm
      subst hm
      exact fun hx => model_append_ne_repr (Nat.repr t2) t1 hx.symm
    rw [streamRun_append, streamRun_append,
      streamRun_untouched _ _ _ _ hfresh, streamRun_untouched _ _ _ _ huser,
      streamRun_single, setText_append, setText_append,
      setText_untouched _ _ _ hfresh, setText_untouched _ _ _ huser,
      setText_single_eq]
    simp

/-- After a successful submission the store is the old store followed by the
exact user record and the placeholder holding the joined fragments. -/
lemma handleSendMessage_messages_ok (s : AppState) (t1 t2 : Nat) (msg : String)
    (fs : List String) (h : s.chat = some ())
    (hfresh : ∀ m ∈ s.messages, m.id ≠ "model-" ++ Nat.repr t2) :
    (handleSendMessage s t1 t2 msg fs false).messages =
      s.messages ++ [{ id := Nat.repr t1, role := Role.user, text := msg },
        { id := "model-" ++ Nat.repr t2, role := Role.model, text := joinFrags fs }] := by
  obtain ⟨c, ms, il, er⟩ := s
  cases c with
  | none => exact absurd h (by simp)
  | some u =>
    cases u
    simp only [handleSendMessage, if_neg]
    have huser : ∀ m ∈ ([{ id := Nat.repr t1, role := Role.user, text := msg }] : List Message),
        m.id ≠ "model-" ++ Nat.repr t2 := by
      intro m hm
      simp only [List.mem_singleton] at hm
      subst hm
      exact fun hx => model_append_ne_repr (Nat.repr t2) t1 hx.symm
    rw [streamRun_append, streamRun_append,
      streamRun_untouched _ _ _ _ hfresh, streamRun_untouched _ _ _ _ huser,
      streamRun_single]
    rw [String.empty_append]
    simp

/-- A later submission with a different placeholder id never changes how an
older record is looked up. -/
lemma textOf_handleSendMessage_ne (s : AppState) (t1 t2 : Nat) (msg : String)
    (fs : List String) (b : Bool) (pid v : String)
    (hne : "model-" ++ Nat.repr t2 ≠ pid)
    (h : textOf s.messages pid = some v) :
    textOf (handleSendMessage s t1 t2 msg fs b).messages pid = some v := by
  obtain ⟨c, ms, il, er⟩ := s
  cases c with
  | none => exact h
  | some u =>
    cases u
    have h1 : textOf ((ms ++ [{ id := Nat.repr t1, role := Role.user, text := msg }]) ++
        [{ id := "model-" ++ Nat.repr t2, role := Role.model, text := "" }]) pid = some v :=
      textOf_append_left _ _ _ _ (textOf_append_left _ _ _ _ h)
    cases b with
    | false =>
      simp only [handleSendMessage]
      rw [if_neg (by simp)]
      rw [textOf_streamRun_ne _ _ hne]
      exact h1
    | true =>
      simp only [handleSendMessage]
      rw [if_pos trivial]
      rw [textOf_setText_ne _ _ _ hne, textOf_streamRun_ne _ _ hne]
      exact h1

lemma handleSendMessage_flags_ok (s : AppState) (t1 t2 : Nat) (msg : String)
    (fs : List String) (h : s.chat = some ()) :
    (handleSendMessage s t1 t2 msg fs false).isLoading = false ∧
    (handleSendMessage s t1 t2 msg fs false).error = none := by
  obtain ⟨c, ms, il, er⟩ := s
  cases c with
  | none => exact absurd h (by simp)
  | some u => cases u; exact ⟨rfl, rfl⟩

lemma handleSendMessage_flags_fail (s : AppState) (t1 t2 : Nat) (msg : String)
    (fs : List String) (h : s.chat = some ()) :
    (handleSendMessage s t1 t2 msg fs true).isLoading = false ∧
    (handleSendMessage s t1 t2 msg fs true).error = some streamErrorBanner := by
  obtain ⟨c, ms, il, er⟩ := s
  cases c with
  | none => exact absurd h (by simp)
  | some u => cases u; exact ⟨rfl, rfl⟩

lemma handleSendMessage_none (s : AppState) (t1 t2 : Nat) (msg : String)
    (fs : List String) (b : Bool) (h : s.chat = none) :
    handleSendMessage s t1 t2 msg fs b = s := by
  unfold handleSendMessage
  rw [h]

/-! ### The claims -/

/-- C7: when no valid session handle exists, a submission is a complete no-op:
the store, the loading flag and the error flag are returned unchanged and the
stream inputs are never consumed. -/
theorem submission_noop_without_handle (s : AppState) (t1 t2 : Nat) (msg : String)
    (fs : List String) (b : Bool) (h : s.chat = none) :
    handleSendMessage s t1 t2 msg fs b = s :=
  handleSendMessage_none s t1 t2 msg fs b h

theorem submission_noop_without_handle_witness :
    handleSendMessage initialState 0 0 "x" [] false = initialState :=
  submission_noop_without_handle initialState 0 0 "x" [] false rfl

/-- C6: if session creation throws during bootstrap, the store stays at its
initial empty state (no greeting appended), the banner shows the fixed
bootstrap-failure message, the handle stays unset, and every subsequent
submission is a no-op (sending is disabled).  Totality of `bootstrap` models
that the exception does not propagate past the bootstrap boundary. -/
theorem bootstrap_failure_state :
    (bootstrap false initialState).messages = [] ∧
    (bootstrap false initialState).error = some bootErrorBanner ∧
    (bootstrap false initialState).chat = none ∧
    ∀ (t1 t2 : Nat) (msg : String) (fs : List String) (b : Bool),
      handleSendMessage (bootstrap false initialState) t1 t2 msg fs b =
        bootstrap false initialState := by
  refine ⟨rfl, rfl, rfl, ?_⟩
  intro t1 t2 msg fs b
  exact handleSendMessage_none _ t1 t2 msg fs b rfl

/-- C8: submitting "Hello" against a handle whose stream yields "Hi" and
" there!" ends with the greeting, then the user record "Hello" immediately
followed by the model record "Hi there!", with loading false and error null. -/
theorem scenario_hello :
    handleSendMessage (bootstrap true initialState) 5 5 "Hello" ["Hi", " there!"] false =
      { chat := some (), isLoading := false, error := none,
        messages := [greeting,
          { id := "5", role := Role.user, text := "Hello" },
          { id := "model-5", role := Role.model, text := "Hi there!" }] } := by
  decide

/-- C2: if the stream raises after any number of fragments, the placeholder's
final text is the fixed error string (partial accumulated text is discarded),
the global error flag holds the generic message, and the loading flag is
cleared; totality of `handleSendMessage` models that the exception does not
escape the submission operation. -/
theorem stream_failure_overwrite (s : AppState) (t1 t2 : Nat) (msg : String)
    (fs : List String) (h : s.chat = some ()) :
    textOf (handleSendMessage s t1 t2 msg fs true).messages ("model-" ++ Nat.repr t2) =
        some errorReplyText ∧
    (handleSendMessage s t1 t2 msg fs true).error = some streamErrorBanner ∧
    (handleSendMessage s t1 t2 msg fs true).isLoading = false := by
  refine ⟨?_, (handleSendMessage_flags_fail s t1 t2 msg fs h).2,
    (handleSendMessage_flags_fail s t1 t2 msg fs h).1⟩
  obtain ⟨c, ms, il, er⟩ := s
  cases c with
  | none => exact absurd h (by simp)
  | some u =>
    cases u
    simp only [handleSendMessage]
    rw [if_pos trivial]
    apply textOf_setText_self
    apply exists_id_streamRun
    refine ⟨{ id := "model-" ++ Nat.repr t2, role := Role.model, text := "" }, ?_, rfl⟩
    simp

theorem stream_failure_overwrite_witness :
    textOf (handleSendMessage (bootstrap true initialState) 7 7 "X" ["a", "b"] true).messages
        ("model-" ++ Nat.repr 7) = some errorReplyText ∧
    (handleSendMessage (bootstrap true initialState) 7 7 "X" ["a", "b"] true).error =
        some streamErrorBanner ∧
    (handleSendMessage (bootstrap true initialState) 7 7 "X" ["a", "b"] true).isLoading =
        false :=
  stream_failure_overwrite (bootstrap true initialState) 7 7 "X" ["a", "b"] rfl

/-- C9: a stream that completes successfully after zero fragments finalizes
the placeholder with empty text and keeps it (both appended records remain),
with loading cleared and error null. -/
theorem empty_stream_keeps_placeholder (s : AppState) (t1 t2 : Nat) (msg : String)
    (h : s.chat = some ())
    (hfresh : ∀ m ∈ s.messages, m.id ≠ "model-" ++ Nat.repr t2) :
    textOf (handleSendMessage s t1 t2 msg [] false).messages ("model-" ++ Nat.repr t2) =
        some "" ∧
    (handleSendMessage s t1 t2 msg [] false).isLoading = false ∧
    (handleSendMessage s t1 t2 msg [] false).error = none ∧
    (handleSendMessage s t1 t2 msg [] false).messages.length = s.messages.length + 2 := by
  have hmsgs := handleSendMessage_messages_ok s t1 t2 msg [] h hfresh
  refine ⟨?_, (handleSendMessage_flags_ok s t1 t2 msg [] h).1,
    (handleSendMessage_flags_ok s t1 t2 msg [] h).2, ?_⟩
  · rw [hmsgs, textOf_append_right _ _ _ hfresh,
      textOf_cons_ne _ _ _ (fun hx => model_append_ne_repr (Nat.repr t2) t1 hx.symm),
      textOf_cons_eq _ _ _ rfl]
    rfl
  · rw [hmsgs]
    simp

theorem empty_stream_keeps_placeholder_witness :
    textOf (handleSendMessage (bootstrap true initialState) 9 9 "Q" [] false).messages
        ("model-" ++ Nat.repr 9) = some "" ∧
    (handleSendMessage (bootstrap true initialState) 9 9 "Q" [] false).isLoading = false ∧
    (handleSendMessage (bootstrap true initialState) 9 9 "Q" [] false).error = none ∧
    (handleSendMessage (bootstrap true initialState) 9 9 "Q" [] false).messages.length =
      (bootstrap true initialState).messages.length + 2 :=
  empty_stream_keeps_placeholder (bootstrap true initialState) 9 9 "Q" rfl (by decide)

/-- C10: a failed submission is not rolled back: the final store is the old
store unchanged, followed by the user record with exactly the submitted text,
followed by the placeholder whose text (alone) was replaced by the fixed
error string. -/
theorem failure_no_rollback (s : AppState) (t1 t2 : Nat) (msg : String) (fs : List String)
    (h : s.chat = some ())
    (hfresh : ∀ m ∈ s.messages, m.id ≠ "model-" ++ Nat.repr t2) :
    (handleSendMessage s t1 t2 msg fs true).messages =
      s.messages ++ [{ id := Nat.repr t1, role := Role.user, text := msg },
        { id := "model-" ++ Nat.repr t2, role := Role.model, text := errorReplyText }] :=
  handleSendMessage_messages_fail s t1 t2 msg fs h hfresh

theorem failure_no_rollback_witness :
    (handleSendMessage (bootstrap true initialState) 2 3 "q" ["x"] true).messages =
      (bootstrap true initialState).messages ++
        [{ id := Nat.repr 2, role := Role.user, text := "q" },
          { id := "model-" ++ Nat.repr 3, role := Role.model, text := errorReplyText }] :=
  failure_no_rollback (bootstrap true initialState) 2 3 "q" ["x"] rfl (by decide)

/-- C3: starting from a successful bootstrap, after any sequence of successful
submissions the store holds exactly 1 + 2·N records: the greeting model record
first, then for each submission its user record immediately followed by its
model record, in submission order. -/
theorem store_shape_after_submissions (subs : List Submission)
    (_hok : ∀ sub ∈ subs, sub.fails = false) :
    (runSubmissions (bootstrap true initialState) subs).messages.length =
        1 + 2 * subs.length ∧
    (runSubmissions (bootstrap true initialState) subs).messages.map keyOf =
        ("init", Role.model) :: idRolePattern subs := by
  have hkey := runSubmissions_keyOf subs (bootstrap true initialState) rfl
  have hmsg : (bootstrap true initialState).messages.map keyOf =
      [("init", Role.model)] := rfl
  rw [hmsg] at hkey
  rw [List.singleton_append] at hkey
  refine ⟨?_, hkey⟩
  have hlen := congrArg List.length hkey
  rw [List.length_map] at hlen
  rw [hlen, List.length_cons, idRolePattern_length]
  omega

theorem store_shape_after_submissions_witness :
    (runSubmissions (bootstrap true initialState)
        [{ t1 := 1, t2 := 1, input := "a", fragments := ["x"], fails := false },
         { t1 := 2, t2 := 2, input := "b", fragments := [], fails := false }]).messages.length =
        1 + 2 * 2 ∧
    (runSubmissions (bootstrap true initialState)
        [{ t1 := 1, t2 := 1, input := "a", fragments := ["x"], fails := false },
         { t1 := 2, t2 := 2, input := "b", fragments := [], fails := false }]).messages.map
          keyOf =
        ("init", Role.model) :: idRolePattern
          [{ t1 := 1, t2 := 1, input := "a", fragments := ["x"], fails := false },
           { t1 := 2, t2 := 2, input := "b", fragments := [], fails := false }] := by
  have h := store_shape_after_submissions
    [{ t1 := 1, t2 := 1, input := "a", fragments := ["x"], fails := false },
     { t1 := 2, t2 := 2, input := "b", fragments := [], fails := false }] (by decide)
  simpa using h

/-- C5: one streaming update rewrites only the records whose id equals the
placeholder id: the store keeps its length, a position whose record has a
different id keeps exactly its record, and a matching position keeps its id
and role with only the text replaced; nothing is added, removed or
reordered. -/
theorem fragment_update_frame (l : List Message) (pid txt : String) :
    (setText pid txt l).length = l.length ∧
    ∀ (i : Nat) (m : Message), l[i]? = some m →
      (m.id ≠ pid → (setText pid txt l)[i]? = some m) ∧
      (m.id = pid → (setText pid txt l)[i]? =
        some { id := m.id, role := m.role, text := txt }) := by
  constructor
  · simp [setText]
  · intro i m hm
    constructor
    · intro hne
      simp [setText, List.getElem?_map, hm, hne]
    · intro heq
      simp [setText, List.getElem?_map, hm, heq]

theorem fragment_update_frame_witness :
    (setText "p" "new" [{ id := "q", role := Role.user, text := "keep" },
        { id := "p", role := Role.model, text := "old" }])[1]? =
      some { id := "p", role := Role.model, text := "new" } :=
  ((fragment_update_frame
      [{ id := "q", role := Role.user, text := "keep" },
        { id := "p", role := Role.model, text := "old" }] "p" "new").2
    1 { id := "p", role := Role.model, text := "old" } (by decide)).2 rfl

/-- C1: for a successful stream, the placeholder's text passes through exactly
the snapshots [f1, f1 ++ f2, ..., f1 ++ ... ++ fn] in order (one full-snapshot
rewrite per fragment, none skipped, reordered or repeated); the final text is
the concatenation of all fragments in arrival order, and later submissions
with a different placeholder id never change it. -/
theorem streaming_snapshots (s : AppState) (t1 t2 : Nat) (msg : String) (fs : List String)
    (h : s.chat = some ())
    (hfresh : ∀ m ∈ s.messages, m.id ≠ "model-" ++ Nat.repr t2) :
    (streamRun ("model-" ++ Nat.repr t2)
        ((s.messages ++ [{ id := Nat.repr t1, role := Role.user, text := msg }]) ++
          [{ id := "model-" ++ Nat.repr t2, role := Role.model, text := "" }])
        "" fs).1.map (fun x => textOf x ("model-" ++ Nat.repr t2)) =
      (prefixConcats fs).map some ∧
    textOf (handleSendMessage s t1 t2 msg fs false).messages ("model-" ++ Nat.repr t2) =
      some (joinFrags fs) ∧
    ∀ (t1' t2' : Nat) (msg' : String) (fs' : List String) (b' : Bool),
      "model-" ++ Nat.repr t2' ≠ "model-" ++ Nat.repr t2 →
      textOf (handleSendMessage
          (handleSendMessage s t1 t2 msg fs false) t1' t2' msg' fs' b').messages
        ("model-" ++ Nat.repr t2) = some (joinFrags fs) := by
  have hsome : ∃ m ∈ (s.messages ++ [{ id := Nat.repr t1, role := Role.user, text := msg }]) ++
      [{ id := "model-" ++ Nat.repr t2, role := Role.model, text := "" }],
      m.id = "model-" ++ Nat.repr t2 := by
    refine ⟨{ id := "model-" ++ Nat.repr t2, role := Role.model, text := "" }, ?_, rfl⟩
    simp
  have hfinal : textOf (handleSendMessage s t1 t2 msg fs false).messages
      ("model-" ++ Nat.repr t2) = some (joinFrags fs) := by
    rw [handleSendMessage_messages_ok s t1 t2 msg fs h hfresh,
      textOf_append_right _ _ _ hfresh,
      textOf_cons_ne _ _ _ (fun hx => model_append_ne_repr (Nat.repr t2) t1 hx.symm),
      textOf_cons_eq _ _ _ rfl]
  refine ⟨?_, hfinal, ?_⟩
  · rw [textOf_streamRun_trace _ fs _ "" hsome]
    apply List.map_congr_left
    intro x _
    rw [String.empty_append]
  · intro t1' t2' msg' fs' b' hne
    exact textOf_handleSendMessage_ne _ t1' t2' msg' fs' b' _ _ hne hfinal

theorem streaming_snapshots_witness :
    (streamRun ("model-" ++ Nat.repr 5)
        (((bootstrap true initialState).messages ++
            [{ id := Nat.repr 5, role := Role.user, text := "Hello" }]) ++
          [{ id := "model-" ++ Nat.repr 5, role := Role.model, text := "" }])
        "" ["Hi", " there!"]).1.map (fun x => textOf x ("model-" ++ Nat.repr 5)) =
      (prefixConcats ["Hi", " there!"]).map some ∧
    textOf (handleSendMessage (bootstrap true initialState) 5 5 "Hello"
        ["Hi", " there!"] false).messages ("model-" ++ Nat.repr 5) =
      some (joinFrags ["Hi", " there!"]) ∧
    textOf (handleSendMessage
        (handleSendMessage (bootstrap true initialState) 5 5 "Hello" ["Hi", " there!"] false)
        6 6 "More" ["zap"] false).messages ("model-" ++ Nat.repr 5) =
      some (joinFrags ["Hi", " there!"]) := by
  have h := streaming_snapshots (bootstrap true initialState) 5 5 "Hello"
    ["Hi", " there!"] rfl (by decide)
  exact ⟨h.1, h.2.1, h.2.2 6 6 "More" ["zap"] false (by decide)⟩

lemma idRolePattern_fst_mem :
    ∀ (subs : List Submission) (x : String),
      x ∈ (idRolePattern subs).map Prod.fst →
      ∃ sub ∈ subs, x = Nat.repr sub.t1 ∨ x = "model-" ++ Nat.repr sub.t2 := by
  intro subs
  induction subs with
  | nil => intro x hx; simp [idRolePattern] at hx
  | cons sub rest ih =>
    intro x hx
    simp only [idRolePattern, List.map_cons, List.mem_cons] at hx
    rcases hx with rfl | rfl | hx
    · exact ⟨sub, by simp, Or.inl rfl⟩
    · exact ⟨sub, by simp, Or.inr rfl⟩
    · rcases ih x hx with ⟨sub', hmem, hcase⟩
      exact ⟨sub', by simp [hmem], hcase⟩

lemma idRolePattern_fst_nodup :
    ∀ subs : List Submission,
      (subs.map Submission.t1).Pairwise (fun a b => a ≠ b) →
      (subs.map Submission.t2).Pairwise (fun a b => a ≠ b) →
      ((idRolePattern subs).map Prod.fst).Nodup := by
  intro subs
  induction subs with
  | nil => intro _ _; simp [idRolePattern]
  | cons sub rest ih =>
    intro h1 h2
    rw [List.map_cons, List.pairwise_cons] at h1 h2
    simp only [idRolePattern, List.map_cons, List.nodup_cons, List.mem_cons]
    refine ⟨?_, ?_, ih h1.2 h2.2⟩
    · rintro (hx | hx)
      · exact model_append_ne_repr (Nat.repr sub.t2) sub.t1 hx.symm
      · rcases idRolePattern_fst_mem rest _ hx with ⟨sub', hmem, hcase | hcase⟩
        · exact h1.1 sub'.t1 (List.mem_map_of_mem Submission.t1 hmem) (repr_inj hcase)
        · exact model_append_ne_repr (Nat.repr sub'.t2) sub.t1 hcase.symm
    · intro hx
      rcases idRolePattern_fst_mem rest _ hx with ⟨sub', hmem, hcase | hcase⟩
      · exact model_append_ne_repr (Nat.repr sub.t2) sub'.t1 hcase
      · exact h2.1 sub'.t2 (List.mem_map_of_mem Submission.t2 hmem)
          (repr_inj (model_append_inj hcase))

/-- C4 as stated is false on the code: two submissions whose `Date.now()`
readings coincide (same millisecond) produce duplicate user ids and duplicate
placeholder ids in the store. -/
theorem id_uniqueness_counterexample :
    ¬ ((runSubmissions (bootstrap true initialState)
        [{ t1 := 0, t2 := 0, input := "a", fragments := [], fails := false },
         { t1 := 0, t2 := 0, input := "b", fragments := [], fails := false }]).messages.map
          (fun m => m.id)).Nodup := by
  decide

/-- C4 amended: provided the user-id clock readings of distinct submissions
are pairwise distinct, and likewise the placeholder-id readings, every id in
the resulting store is unique: the greeting id, each user id and each
placeholder id are pairwise distinct across the whole sequence. -/
theorem ids_unique (subs : List Submission)
    (h1 : (subs.map Submission.t1).Pairwise (fun a b => a ≠ b))
    (h2 : (subs.map Submission.t2).Pairwise (fun a b => a ≠ b)) :
    ((runSubmissions (bootstrap true initialState) subs).messages.map
      (fun m => m.id)).Nodup := by
  have hkey := runSubmissions_keyOf subs (bootstrap true initialState) rfl
  have hids : (runSubmissions (bootstrap true initialState) subs).messages.map
      (fun m => m.id) =
      ((runSubmissions (bootstrap true initialState) subs).messages.map keyOf).map
        Prod.fst := by
    rw [List.map_map]
    rfl
  rw [hids, hkey]
  have hmsg : (bootstrap true initialState).messages.map keyOf =
      [("init", Role.model)] := rfl
  rw [hmsg, List.singleton_append, List.map_cons, List.nodup_cons]
  refine ⟨?_, idRolePattern_fst_nodup subs h1 h2⟩
  intro hx
  rcases idRolePattern_fst_mem subs _ hx with ⟨sub', _, hcase | hcase⟩
  · exact repr_ne_init sub'.t1 hcase.symm
  · exact model_append_ne_init (Nat.repr sub'.t2) hcase.symm

theorem ids_unique_witness :
    ((runSubmissions (bootstrap true initialState)
        [{ t1 := 1, t2 := 1, input := "a", fragments := ["x"], fails := false },
         { t1 := 2, t2 := 2, input := "b", fragments := [], fails := true }]).messages.map
      (fun m => m.id)).Nodup :=
  ids_unique
    [{ t1 := 1, t2 := 1, input := "a", fragments := ["x"], fails := false },
     { t1 := 2, t2 := 2, input := "b", fragments := [], fails := true }]
    (by decide) (by decide)
